import Mathlib

/-!
# Verification of the snake-go simulation core

A shallow embedding, in Lean 4, of the gameplay step functions of the
snake-go repository.  Two near-duplicate variants of the game exist in the
sources:

* the *enhanced* variant (`main.go`): `updateGameplay`, `resetGameplay`,
  `placeFood`, `placePowerUp`, with power-ups, invulnerability, dynamic
  grid dimensions, combo bonus `combo / 3`;
* the *simple* variant (`unnamed/part_000`): `Update`, `reset`,
  `placeFood`, fixed 32×24 grid, no power-ups, combo bonus `combo / 2`.

Go machine integers are modelled as `Int`; Go's `%` on `int` is truncated
remainder, modelled by `Int.tmod`, and Go's `/` by `Int.tdiv`.  Go code
that can panic (indexing an empty slice, `%` by zero) or loop forever
(the rejection-sampling placement loops) is modelled in `Option`: `none`
means the Go execution does not return normally at that point.  The
random-number generator is modelled by explicit draw lists carried in the
per-tick input: each entry is one `rng.Intn`-produced candidate cell, and
the probabilistic power-up spawn roll (`rng.Float64() > 0.15`) is a
boolean input.  Audio, particles, and other purely cosmetic fields
(pulse phases, trail opacity, screen shake) are omitted: no control flow
of the simulation core depends on them.
-/

namespace SnakeGo

/-- `Point` (both variants): an integer grid cell or direction delta. -/
structure Point where
  x : Int
  y : Int
deriving DecidableEq, Repr

/-- The exact reverse of a direction delta. -/
def reverseDir (d : Point) : Point := ⟨-d.x, -d.y⟩

/-- `GameState` of the enhanced variant (`StateTitleScreen` … `StateGameOver`). -/
inductive GState where
  | titleScreen
  | menu
  | playing
  | paused
  | gameOver
deriving DecidableEq, Repr

/-- `PowerUp` of the enhanced variant (cosmetic fields `pulse`, `sparkles` omitted). -/
structure PowerUp where
  pos : Point
  type_ : Int
  timer : Int
  active : Bool
deriving DecidableEq, Repr

/-- Core state of the enhanced variant's `Game` struct (cosmetic and
engine-owned fields omitted; `gridW`/`gridH` are fields, computed elsewhere
from the window size). -/
structure Game where
  gridW : Int
  gridH : Int
  snake : List Point
  dir : Point
  nextDir : Point
  grow : Int
  food : Point
  powerUp : PowerUp
  frame : Int
  speed : Int
  baseSpeed : Int
  score : Int
  combo : Int
  maxCombo : Int
  comboTimer : Int
  state : GState
  speedBoostTime : Int
  slowMotionTime : Int
  invulnerable : Int
deriving DecidableEq, Repr

/-- `minSpeed` of the enhanced variant. -/
def minSpeed : Int := 4
/-- `maxSpeed` of the enhanced variant. -/
def maxSpeed : Int := 20

/-- One tick's external input to the enhanced variant: the edge-triggered
keys read by `updateGameplay`, plus the modelled RNG draws consumed this
tick (`foodDraws`/`powerDraws` are the successive candidate cells of the
rejection-sampling loops, `spawnRoll` is `rng.Float64() <= 0.15`,
`powerTypeDraw` is `rng.Intn(3)`). -/
structure Input where
  pauseKey : Bool
  speedUpKey : Bool
  speedDownKey : Bool
  keyUp : Bool
  keyDown : Bool
  keyLeft : Bool
  keyRight : Bool
  spawnRoll : Bool
  foodDraws : List Point
  powerDraws : List Point
  powerTypeDraw : Int
deriving Repr

/-- The rejection-sampling loop body of the enhanced `placeFood`
(main.go 574–589), iterated over the list of RNG draws: the first draw
that is not on the snake and not on an active power-up is accepted.
`none` models the Go `for {}` loop not having returned within the given
draws. -/
def placeFoodGo (snake : List Point) (pu : PowerUp) : List Point → Option Point
  | [] => none
  | f :: rest =>
    if f ∉ snake ∧ (pu.pos ≠ f ∨ pu.active = false) then some f
    else placeFoodGo snake pu rest

/-- The rejection-sampling loop of `placePowerUp` (main.go 596–619):
a draw equal to the food is skipped (`continue`), an occupied draw is
rejected, the first remaining draw is accepted. -/
def placePowerUpGo (snake : List Point) (food : Point) : List Point → Option Point
  | [] => none
  | p :: rest =>
    if p = food then placePowerUpGo snake food rest
    else if p ∈ snake then placePowerUpGo snake food rest
    else some p

/-- `placePowerUp` (main.go 591–620): early return when a power-up is
already active or the spawn roll fails; otherwise run the rejection loop
and activate a power-up with a random type and a 600-tick timer. -/
def placePowerUp (g : Game) (i : Input) : Option Game :=
  if g.powerUp.active = true ∨ i.spawnRoll = false then some g
  else
    match placePowerUpGo g.snake g.food i.powerDraws with
    | none => none
    | some p => some { g with powerUp := ⟨p, i.powerTypeDraw, 600, true⟩ }

/-- Speed-control keys of `updateGameplay` (main.go 787–796). -/
def applySpeedKeys (g : Game) (i : Input) : Game :=
  let g := if i.speedUpKey = true ∧ g.baseSpeed > minSpeed then { g with baseSpeed := g.baseSpeed - 1 } else g
  if i.speedDownKey = true ∧ g.baseSpeed < maxSpeed then { g with baseSpeed := g.baseSpeed + 1 } else g

/-- Movement-input handling of `updateGameplay` (main.go 798–811): each
pressed direction key updates `nextDir` unless it is the exact reverse of
the current direction `dir`, which is read once before the four checks. -/
def applyDirInput (g : Game) (i : Input) : Game :=
  let d := g.dir
  let g := if i.keyUp = true ∧ d.y ≠ 1 then { g with nextDir := ⟨0, -1⟩ } else g
  let g := if i.keyDown = true ∧ d.y ≠ -1 then { g with nextDir := ⟨0, 1⟩ } else g
  let g := if i.keyLeft = true ∧ d.x ≠ 1 then { g with nextDir := ⟨-1, 0⟩ } else g
  if i.keyRight = true ∧ d.x ≠ -1 then { g with nextDir := ⟨1, 0⟩ } else g

/-- Timer updates of `updateGameplay` (main.go 819–832): speed modifier
timers recompute `speed` from `baseSpeed`, the invulnerability timer
decays. -/
def applyTimers (g : Game) : Game :=
  let g :=
    if g.speedBoostTime > 0 then
      { g with speedBoostTime := g.speedBoostTime - 1, speed := g.baseSpeed.tdiv 2 }
    else if g.slowMotionTime > 0 then
      { g with slowMotionTime := g.slowMotionTime - 1, speed := g.baseSpeed * 2 }
    else { g with speed := g.baseSpeed }
  if g.invulnerable > 0 then { g with invulnerable := g.invulnerable - 1 } else g

/-- Power-up countdown / periodic spawn attempt of `updateGameplay`
(main.go 838–858). -/
def powerUpPhase (g : Game) (i : Input) : Option Game :=
  if g.powerUp.active = true then
    let t := g.powerUp.timer - 1
    if t ≤ 0 then some { g with powerUp := { g.powerUp with timer := t, active := false } }
    else some { g with powerUp := { g.powerUp with timer := t } }
  else if g.frame.tmod 300 = 0 then placePowerUp g i
  else some g

/-- The pre-movement part of `updateGameplay` (main.go 786–860): speed
keys, movement input, frame increment, timers, power-up phase. -/
def updatePre (g : Game) (i : Input) : Option Game :=
  let g := applySpeedKeys g i
  let g := applyDirInput g i
  let g := { g with frame := g.frame + 1 }
  let g := applyTimers g
  powerUpPhase g i

/-- The toroidally wrapped new head position of `updateGameplay`
(main.go 869): `{(head.X + dir.X + gridW) % gridW, (head.Y + dir.Y + gridH) % gridH}`
with Go's truncated `%`. -/
def wrapHead (head dir : Point) (w h : Int) : Point :=
  ⟨(head.x + dir.x + w).tmod w, (head.y + dir.y + h).tmod h⟩

/-- Food-collision branch of `updateGameplay` (main.go 896–927), called
with the post-prepend snake already in `g`: on pickup, grow by 2,
increment the combo, reset the combo timer to 120, score
`1 + combo/3`, and relocate the food; otherwise decay the combo timer
and clear the combo once it lapses. -/
def foodPhase (g : Game) (newHead : Point) (draws : List Point) : Option Game :=
  if newHead = g.food then
    let combo := g.combo + 1
    let maxC := if combo > g.maxCombo then combo else g.maxCombo
    match placeFoodGo g.snake g.powerUp draws with
    | none => none
    | some f =>
      some { g with grow := g.grow + 2, combo := combo, maxCombo := maxC,
                    comboTimer := 120, score := g.score + 1 + combo.tdiv 3, food := f }
  else
    let t := g.comboTimer - 1
    some { g with comboTimer := t, combo := if t ≤ 0 then 0 else g.combo }

/-- Power-up collision branch of `updateGameplay` (main.go 929–944). -/
def powerUpPickup (g : Game) (newHead : Point) : Game :=
  if g.powerUp.active = true ∧ newHead = g.powerUp.pos then
    let g :=
      if g.powerUp.type_ = 0 then { g with score := g.score + 5 + g.combo }
      else if g.powerUp.type_ = 1 then { g with speedBoostTime := 300 }
      else if g.powerUp.type_ = 2 then { g with invulnerable := 180 }
      else g
    { g with powerUp := { g.powerUp with active := false } }
  else g

/-- Grow-or-shrink step of `updateGameplay` (main.go 946–951): consume one
unit of pending growth, otherwise drop the tail cell unless the snake has
length 1. -/
def growPhase (g : Game) : Game :=
  if g.grow > 0 then { g with grow := g.grow - 1 }
  else if 1 < g.snake.length then { g with snake := g.snake.dropLast }
  else g

/-- Movement part of `updateGameplay` (main.go 862–953): movement gating
on `frame % speed`, direction commit, wrap, self-collision check against
the pre-move body (skipped while invulnerable), head prepend, food phase,
power-up pickup, grow/shrink.  `none` models a Go panic (`% 0`, indexing
an empty snake) or the food-placement loop not returning. -/
def movePhase (g : Game) (i : Input) : Option Game :=
  if g.speed = 0 then none
  else if g.frame.tmod g.speed ≠ 0 then some g
  else
    let g := { g with dir := g.nextDir }
    match g.snake with
    | [] => none
    | head :: tail =>
      let newHead := wrapHead head g.dir g.gridW g.gridH
      if g.invulnerable = 0 ∧ newHead ∈ head :: tail then
        some { g with state := GState.gameOver }
      else
        let g := { g with snake := newHead :: head :: tail }
        match foodPhase g newHead i.foodDraws with
        | none => none
        | some g => some (growPhase (powerUpPickup g newHead))

/-- `updateGameplay` (main.go 778–953): the per-tick update of the
enhanced variant in the `StatePlaying` state.  The pause key transitions
to `StatePaused` before anything else. -/
def updateGameplay (g : Game) (i : Input) : Option Game :=
  if i.pauseKey = true then some { g with state := GState.paused }
  else
    match updatePre g i with
    | none => none
    | some p => movePhase p i

/-- `resetGameplay` (main.go 526–556): reinitialize all per-run state
with a fresh 3-segment snake at mid-grid heading right, then place the
food.  Note the source order: `speed` is taken from the *old* `baseSpeed`
before `baseSpeed` is reset to 10.  The window-driven recomputation of
`gridW`/`gridH` (`calculatePlayfieldDimensions`) is engine-owned and kept
abstract: the grid fields are taken as given. -/
def resetGameplay (g : Game) (i : Input) : Option Game :=
  let midX := g.gridW.tdiv 2
  let midY := g.gridH.tdiv 2
  let g := { g with
    snake := [⟨midX, midY⟩, ⟨midX - 1, midY⟩, ⟨midX - 2, midY⟩],
    dir := ⟨1, 0⟩, nextDir := ⟨1, 0⟩, grow := 0, frame := 0, score := 0,
    combo := 0, maxCombo := 0, comboTimer := 0, state := GState.playing,
    speedBoostTime := 0, slowMotionTime := 0, invulnerable := 0,
    speed := g.baseSpeed, powerUp := ⟨⟨0, 0⟩, 0, 0, false⟩, baseSpeed := 10 }
  match placeFoodGo g.snake g.powerUp i.foodDraws with
  | none => none
  | some f => some { g with food := f }

/-- Repeated `updateGameplay` ticks; `none` as soon as one tick fails. -/
def runTicks : Game → List Input → Option Game
  | g, [] => some g
  | g, i :: is =>
    match updateGameplay g i with
    | none => none
    | some g' => runTicks g' is

/-! ## The simple variant (`unnamed/part_000`) -/

namespace Simple

/-- `gridW` constant of the simple variant. -/
def gridW : Int := 32
/-- `gridH` constant of the simple variant. -/
def gridH : Int := 24
/-- `minSpeed` of the simple variant. -/
def minSpeed : Int := 8
/-- `maxSpeed` of the simple variant. -/
def maxSpeed : Int := 16

/-- Core state of the simple variant's `Game` struct (cosmetic and
engine-owned fields omitted). -/
structure Game where
  snake : List Point
  dir : Point
  nextDir : Point
  grow : Int
  food : Point
  frame : Int
  speed : Int
  score : Int
  highScore : Int
  gameOver : Bool
  paused : Bool
  inTitle : Bool
  combo : Int
  comboTimer : Int
deriving DecidableEq, Repr

/-- One tick's external input to the simple variant's `Update`. -/
structure Input where
  keyEnter : Bool
  keySpace : Bool
  keyR : Bool
  keyP : Bool
  keyEqual : Bool
  keyMinus : Bool
  keyUp : Bool
  keyDown : Bool
  keyLeft : Bool
  keyRight : Bool
  foodDraws : List Point
deriving Repr

/-- The rejection-sampling loop body of the simple `placeFood`
(part_000 161–176): the first draw not on the snake is accepted. -/
def placeFoodGo (snake : List Point) : List Point → Option Point
  | [] => none
  | f :: rest => if f ∉ snake then some f else placeFoodGo snake rest

/-- `reset` (part_000 128–145): fresh 3-segment snake at mid-grid heading
right, zeroed per-run state, then place the food. -/
def reset (g : Game) (i : Input) : Option Game :=
  let midX := gridW.tdiv 2
  let midY := gridH.tdiv 2
  let g := { g with
    snake := [⟨midX, midY⟩, ⟨midX - 1, midY⟩, ⟨midX - 2, midY⟩],
    dir := ⟨1, 0⟩, nextDir := ⟨1, 0⟩, grow := 0, frame := 0, score := 0,
    combo := 0, comboTimer := 0, gameOver := false, paused := false,
    inTitle := false }
  match placeFoodGo g.snake i.foodDraws with
  | none => none
  | some f => some { g with food := f }

/-- Movement-input handling of the simple `Update` (part_000 238–250);
identical filtering against the current direction as in the enhanced
variant. -/
def applyDirInput (g : Game) (i : Input) : Game :=
  let d := g.dir
  let g := if i.keyUp = true ∧ d.y ≠ 1 then { g with nextDir := ⟨0, -1⟩ } else g
  let g := if i.keyDown = true ∧ d.y ≠ -1 then { g with nextDir := ⟨0, 1⟩ } else g
  let g := if i.keyLeft = true ∧ d.x ≠ 1 then { g with nextDir := ⟨-1, 0⟩ } else g
  if i.keyRight = true ∧ d.x ≠ -1 then { g with nextDir := ⟨1, 0⟩ } else g

/-- Movement and collision part of the simple `Update` (part_000 256–305):
frame increment, movement gating, direction commit, wrap, unconditional
self-collision check (records the high score on game over), prepend, food
pickup with combo bonus `combo / 2` and combo timer 60, then unguarded
tail removal. -/
def moveSimple (g : Game) (i : Input) : Option Game :=
  let g := { g with frame := g.frame + 1 }
  if g.speed = 0 then none
  else if g.frame.tmod g.speed ≠ 0 then some g
  else
    let g := { g with dir := g.nextDir }
    match g.snake with
    | [] => none
    | head :: tail =>
      let newHead := wrapHead head g.dir gridW gridH
      if newHead ∈ head :: tail then
        let g := if g.score > g.highScore then { g with highScore := g.score } else g
        some { g with gameOver := true }
      else
        let g := { g with snake := newHead :: head :: tail }
        let og :=
          if newHead = g.food then
            let combo := g.combo + 1
            match placeFoodGo g.snake i.foodDraws with
            | none => none
            | some f =>
              some { g with grow := g.grow + 2, combo := combo, comboTimer := 60,
                            score := g.score + 1 + combo.tdiv 2, food := f }
          else
            let t := g.comboTimer - 1
            some { g with comboTimer := t, combo := if t ≤ 0 then 0 else g.combo }
        match og with
        | none => none
        | some g =>
          if g.grow > 0 then some { g with grow := g.grow - 1 }
          else
            match g.snake with
            | [] => none
            | _ :: _ => some { g with snake := g.snake.dropLast }

/-- Pause toggle and speed keys of the simple `Update` (part_000 206–224). -/
def applyMetaKeys (g : Game) (i : Input) : Game :=
  let g := if i.keyP = true then { g with paused := !g.paused } else g
  let g := if i.keyEqual = true ∧ g.speed > minSpeed then { g with speed := g.speed - 1 } else g
  if i.keyMinus = true ∧ g.speed < maxSpeed then { g with speed := g.speed + 1 } else g

/-- `Update` (part_000 178–306): title screen, pause toggle, speed keys,
game-over restart, movement input, paused early return, then the movement
step.  Fullscreen handling is engine-owned and omitted. -/
def Update (g : Game) (i : Input) : Option Game :=
  if g.inTitle = true then
    if i.keyEnter = true ∨ i.keySpace = true then reset g i else some g
  else
    let g := applyMetaKeys g i
    if g.gameOver = true then
      if i.keyEnter = true ∨ i.keyR = true then
        let g := if g.score > g.highScore then { g with highScore := g.score } else g
        reset g i
      else some g
    else
      let g := applyDirInput g i
      if g.paused = true then some g
      else moveSimple g i

end Simple

/-! ## Helper lemmas -/

/-- Go's truncated `%` agrees with Euclidean `%` on a nonnegative dividend
and keeps the result inside `[0, w)` for a positive divisor. -/
theorem tmod_bound {a w : Int} (ha : 0 ≤ a) (hw : 0 < w) :
    0 ≤ a.tmod w ∧ a.tmod w < w := by
  rw [Int.tmod_eq_emod ha (le_of_lt hw)]
  exact ⟨Int.emod_nonneg a (ne_of_gt hw), Int.emod_lt_of_pos a hw⟩

/-- Whatever cell the enhanced food-placement loop returns is off the
snake and off an active power-up. -/
theorem placeFoodGo_spec (snake : List Point) (pu : PowerUp) :
    ∀ draws f, placeFoodGo snake pu draws = some f →
      f ∉ snake ∧ (pu.active = true → f ≠ pu.pos) := by
  intro draws
  induction draws with
  | nil => intro f h; simp [placeFoodGo] at h
  | cons d rest ih =>
    intro f h
    rw [placeFoodGo] at h
    split at h
    · rename_i hcond
      cases h
      exact ⟨hcond.1, fun hact => by
        rcases hcond.2 with hne | hfa
        · exact fun hf => hne (hf ▸ rfl)
        · rw [hact] at hfa; cases hfa⟩
    · exact ih f h

/-- Whatever cell the simple food-placement loop returns is off the snake. -/
theorem placeFoodGoS_spec (snake : List Point) :
    ∀ draws f, Simple.placeFoodGo snake draws = some f → f ∉ snake := by
  intro draws
  induction draws with
  | nil => intro f h; simp [Simple.placeFoodGo] at h
  | cons d rest ih =>
    intro f h
    rw [Simple.placeFoodGo] at h
    split at h
    · cases h; assumption
    · exact ih f h

/-- Whatever cell the power-up placement loop returns is off the food and
off the snake. -/
theorem placePowerUpGo_spec (snake : List Point) (food : Point) :
    ∀ draws p, placePowerUpGo snake food draws = some p →
      p ≠ food ∧ p ∉ snake := by
  intro draws
  induction draws with
  | nil => intro p h; simp [placePowerUpGo] at h
  | cons d rest ih =>
    intro p h
    rw [placePowerUpGo] at h
    split at h
    · exact ih p h
    · split at h
      · exact ih p h
      · cases h; rename_i h1 h2; exact ⟨h1, h2⟩

/-- The fields of the enhanced game state that the pre-movement phase of
`updateGameplay` can never touch. -/
def CoreEq (a b : Game) : Prop :=
  a.snake = b.snake ∧ a.food = b.food ∧ a.score = b.score ∧ a.combo = b.combo ∧
  a.maxCombo = b.maxCombo ∧ a.comboTimer = b.comboTimer ∧ a.grow = b.grow ∧
  a.state = b.state ∧ a.dir = b.dir

theorem coreEq_refl (a : Game) : CoreEq a a :=
  ⟨Eq.refl _, Eq.refl _, Eq.refl _, Eq.refl _, Eq.refl _, Eq.refl _, Eq.refl _,
   Eq.refl _, Eq.refl _⟩

theorem CoreEq.trans {a b c : Game} (h1 : CoreEq a b) (h2 : CoreEq b c) : CoreEq a c := by
  obtain ⟨s1, f1, c1, o1, m1, t1, g1, e1, d1⟩ := h1
  obtain ⟨s2, f2, c2, o2, m2, t2, g2, e2, d2⟩ := h2
  exact ⟨s1.trans s2, f1.trans f2, c1.trans c2, o1.trans o2, m1.trans m2,
         t1.trans t2, g1.trans g2, e1.trans e2, d1.trans d2⟩

theorem applySpeedKeys_core (g : Game) (i : Input) :
    CoreEq (applySpeedKeys g i) g ∧ (applySpeedKeys g i).frame = g.frame ∧
    (applySpeedKeys g i).nextDir = g.nextDir ∧
    (applySpeedKeys g i).invulnerable = g.invulnerable := by
  simp only [applySpeedKeys]
  split_ifs <;> simp [CoreEq]

theorem applyDirInput_core (g : Game) (i : Input) :
    CoreEq (applyDirInput g i) g ∧ (applyDirInput g i).frame = g.frame ∧
    (applyDirInput g i).invulnerable = g.invulnerable := by
  simp only [applyDirInput]
  split_ifs <;> simp [CoreEq]

theorem applyTimers_core (g : Game) :
    CoreEq (applyTimers g) g ∧ (applyTimers g).frame = g.frame ∧
    (applyTimers g).nextDir = g.nextDir ∧
    (g.invulnerable = 0 → (applyTimers g).invulnerable = 0) ∧
    (applyTimers g).powerUp = g.powerUp := by
  simp only [applyTimers]
  split_ifs <;> simp_all [CoreEq] <;> omega

theorem powerUpPhase_core (g : Game) (i : Input) (p : Game)
    (h : powerUpPhase g i = some p) :
    CoreEq p g ∧ p.frame = g.frame ∧ p.nextDir = g.nextDir ∧
    p.invulnerable = g.invulnerable := by
  simp only [powerUpPhase, placePowerUp] at h
  split_ifs at h
  · cases h; simp [CoreEq]
  · cases h; simp [CoreEq]
  · cases h; simp [CoreEq]
  · split at h
    · cases h
    · cases h; simp [CoreEq]
  · cases h; simp [CoreEq]

/-- The pre-movement phase of `updateGameplay` never changes the snake,
the food, the score/combo bookkeeping, the game state or the current
direction; it increments the frame counter, and a zero invulnerability
timer stays zero. -/
theorem updatePre_core (g : Game) (i : Input) (p : Game)
    (h : updatePre g i = some p) :
    CoreEq p g ∧ p.frame = g.frame + 1 ∧
    (g.invulnerable = 0 → p.invulnerable = 0) := by
  simp only [updatePre] at h
  have hA := applySpeedKeys_core g i
  have hB := applyDirInput_core (applySpeedKeys g i) i
  have hD := applyTimers_core { applyDirInput (applySpeedKeys g i) i with
    frame := (applyDirInput (applySpeedKeys g i) i).frame + 1 }
  have hE := powerUpPhase_core _ i p h
  have hC : CoreEq { applyDirInput (applySpeedKeys g i) i with
      frame := (applyDirInput (applySpeedKeys g i) i).frame + 1 }
      (applyDirInput (applySpeedKeys g i) i) :=
    ⟨rfl, rfl, rfl, rfl, rfl, rfl, rfl, rfl, rfl⟩
  refine ⟨hE.1.trans (hD.1.trans (hC.trans (hB.1.trans hA.1))), ?_, ?_⟩
  · rw [hE.2.1, hD.2.1]
    show (applyDirInput (applySpeedKeys g i) i).frame + 1 = g.frame + 1
    rw [hB.2.1, hA.2.1]
  · intro h0
    rw [hE.2.2.2]
    apply hD.2.2.2.1
    show (applyDirInput (applySpeedKeys g i) i).invulnerable = 0
    rw [hB.2.2, hA.2.2.2, h0]

theorem updateGameplay_eq_movePhase (g : Game) (i : Input) (p : Game)
    (hpause : i.pauseKey = false) (hpre : updatePre g i = some p) :
    updateGameplay g i = movePhase p i := by
  simp [updateGameplay, hpause, hpre]

/-! ## Claim theorems -/

/-- **C1.** On a Playing-state movement tick with the invulnerability
timer at 0, if the computed new head lands on any cell of the pre-move
body, `updateGameplay` transitions to `GameOver` and returns with the
snake body exactly as it was before the tick: the collision check runs
against the pre-move body, before the new head is prepended. -/
theorem claim1_self_collision_pre_move (g : Game) (i : Input) (p : Game)
    (head : Point) (tail : List Point)
    (hpause : i.pauseKey = false)
    (hpre : updatePre g i = some p)
    (hspeed : p.speed ≠ 0)
    (hmove : p.frame.tmod p.speed = 0)
    (hinv : p.invulnerable = 0)
    (hsnake : p.snake = head :: tail)
    (hcol : wrapHead head p.nextDir p.gridW p.gridH ∈ head :: tail) :
    updateGameplay g i = some { p with dir := p.nextDir, state := GState.gameOver } ∧
    g.snake = head :: tail := by
  have hug := updateGameplay_eq_movePhase g i p hpause hpre
  have hcore := (updatePre_core g i p hpre).1
  refine ⟨?_, hcore.1 ▸ hsnake⟩
  rw [hug]
  unfold movePhase
  rw [if_neg hspeed, if_neg (not_not_intro hmove)]
  simp only [hsnake]
  rw [if_pos ⟨hinv, hcol⟩]

/-- An input record with no keys pressed and no RNG draws. -/
def inp0 : Input :=
  { pauseKey := false, speedUpKey := false, speedDownKey := false,
    keyUp := false, keyDown := false, keyLeft := false, keyRight := false,
    spawnRoll := false, foodDraws := [], powerDraws := [], powerTypeDraw := 0 }

/-- A Playing-state configuration about to run head-first into its own
neck: a 3-segment snake headed left from `(5,5)` on a 10×10 grid. -/
def gW1 : Game :=
  { gridW := 10, gridH := 10, snake := [⟨5, 5⟩, ⟨4, 5⟩, ⟨3, 5⟩],
    dir := ⟨-1, 0⟩, nextDir := ⟨-1, 0⟩, grow := 0, food := ⟨9, 9⟩,
    powerUp := ⟨⟨0, 0⟩, 0, 0, false⟩, frame := 3, speed := 4, baseSpeed := 4,
    score := 0, combo := 0, maxCombo := 0, comboTimer := 0,
    state := GState.playing, speedBoostTime := 0, slowMotionTime := 0,
    invulnerable := 0 }

/-- `gW1` after the pre-movement phase of its next tick. -/
def pW1 : Game := { gW1 with frame := 4 }

theorem claim1_witness :
    updateGameplay gW1 inp0 =
      some { pW1 with dir := pW1.nextDir, state := GState.gameOver } ∧
    gW1.snake = [⟨5, 5⟩, ⟨4, 5⟩, ⟨3, 5⟩] :=
  claim1_self_collision_pre_move gW1 inp0 pW1 ⟨5, 5⟩ [⟨4, 5⟩, ⟨3, 5⟩]
    rfl (by decide) (by decide) (by decide) rfl rfl (by decide)

/-- **C2.** For any head position inside the grid and any of the four
unit direction deltas, the wrapped new head position computed by
`updateGameplay` stays inside the grid — toroidal wrap holds across every
edge and corner. -/
theorem claim2_wrap_in_bounds (head d : Point) (w h : Int)
    (hw : 0 < w) (hh : 0 < h)
    (hx : 0 ≤ head.x ∧ head.x < w) (hy : 0 ≤ head.y ∧ head.y < h)
    (hd : d = ⟨0, 1⟩ ∨ d = ⟨0, -1⟩ ∨ d = ⟨1, 0⟩ ∨ d = ⟨-1, 0⟩) :
    (0 ≤ (wrapHead head d w h).x ∧ (wrapHead head d w h).x < w) ∧
    (0 ≤ (wrapHead head d w h).y ∧ (wrapHead head d w h).y < h) := by
  have hbx : 0 ≤ head.x + d.x + w := by
    rcases hd with h1 | h1 | h1 | h1 <;> rw [h1] <;> simp <;> omega
  have hby : 0 ≤ head.y + d.y + h := by
    rcases hd with h1 | h1 | h1 | h1 <;> rw [h1] <;> simp <;> omega
  have b1 := tmod_bound hbx hw
  have b2 := tmod_bound hby hh
  exact ⟨⟨b1.1, b1.2⟩, ⟨b2.1, b2.2⟩⟩

theorem claim2_witness :
    (0 < (10 : Int) ∧ (0 ≤ (9 : Int) ∧ (9 : Int) < 10)) ∧
    (0 ≤ (wrapHead ⟨9, 9⟩ ⟨1, 0⟩ 10 10).x ∧ (wrapHead ⟨9, 9⟩ ⟨1, 0⟩ 10 10).x < 10) ∧
    (0 ≤ (wrapHead ⟨9, 9⟩ ⟨1, 0⟩ 10 10).y ∧ (wrapHead ⟨9, 9⟩ ⟨1, 0⟩ 10 10).y < 10) := by
  refine ⟨⟨by decide, by decide, by decide⟩, ?_⟩
  have := claim2_wrap_in_bounds ⟨9, 9⟩ ⟨1, 0⟩ 10 10 (by decide) (by decide)
    (by decide) (by decide) (by decide)
  exact ⟨this.1, this.2⟩

/-- **C4.** On a Playing-state tick where, after the frame increment, the
frame counter is not a multiple of the effective speed, `updateGameplay`
returns without touching the snake: only timers and cosmetic state were
updated by the pre-movement phase. -/
theorem claim4_non_movement_tick (g : Game) (i : Input) (p : Game)
    (hpause : i.pauseKey = false)
    (hpre : updatePre g i = some p)
    (hspeed : p.speed ≠ 0)
    (hgate : p.frame.tmod p.speed ≠ 0) :
    updateGameplay g i = some p ∧ p.snake = g.snake := by
  have hug := updateGameplay_eq_movePhase g i p hpause hpre
  have hcore := (updatePre_core g i p hpre).1
  refine ⟨?_, hcore.1⟩
  rw [hug]
  unfold movePhase
  rw [if_neg hspeed, if_pos hgate]

/-- A Playing-state configuration whose next tick is not a movement tick
(frame becomes 5, speed 4). -/
def gW4 : Game := { gW1 with frame := 4 }

/-- The four unit direction deltas used by the game. -/
def isUnitDir (d : Point) : Prop :=
  d = ⟨0, 1⟩ ∨ d = ⟨0, -1⟩ ∨ d = ⟨1, 0⟩ ∨ d = ⟨-1, 0⟩

instance (d : Point) : Decidable (isUnitDir d) := by
  unfold isUnitDir; infer_instance

/-- The direction-handling invariant of the enhanced variant: both
direction fields are unit deltas and the pending direction is never the
exact reverse of the committed one. -/
def DirInv (g : Game) : Prop :=
  isUnitDir g.dir ∧ isUnitDir g.nextDir ∧ g.nextDir ≠ reverseDir g.dir

instance (g : Game) : Decidable (DirInv g) := by
  unfold DirInv; infer_instance

/-- The input that presses exactly the arrow key for direction `d`. -/
def dirRequest (d : Point) : Input :=
  { inp0 with
    keyUp := decide (d = ⟨0, -1⟩), keyDown := decide (d = ⟨0, 1⟩),
    keyLeft := decide (d = ⟨-1, 0⟩), keyRight := decide (d = ⟨1, 0⟩) }

theorem unit_ne_reverse {d : Point} (h : isUnitDir d) : d ≠ reverseDir d := by
  rcases h with h | h | h | h <;> rw [h] <;> decide

theorem applyDirInput_not_reverse (g : Game) (i : Input)
    (h : g.nextDir ≠ reverseDir g.dir) :
    (applyDirInput g i).nextDir ≠ reverseDir g.dir := by
  simp only [applyDirInput]
  split_ifs <;> (try exact h) <;>
    (intro hc; simp only [reverseDir, Point.mk.injEq] at hc; omega)

theorem applyDirInput_unit (g : Game) (i : Input) (h : isUnitDir g.nextDir) :
    isUnitDir (applyDirInput g i).nextDir := by
  simp only [applyDirInput]
  split_ifs <;> simp_all [isUnitDir]

theorem foodPhase_pres (g : Game) (nh : Point) (draws : List Point) (g' : Game)
    (h : foodPhase g nh draws = some g') :
    g'.snake = g.snake ∧ g'.dir = g.dir ∧ g'.nextDir = g.nextDir ∧
    g'.state = g.state ∧ g'.invulnerable = g.invulnerable ∧
    g'.frame = g.frame ∧ g'.speed = g.speed := by
  simp only [foodPhase] at h
  split at h
  · split at h
    · cases h
    · cases h; exact ⟨rfl, rfl, rfl, rfl, rfl, rfl, rfl⟩
  · cases h; exact ⟨rfl, rfl, rfl, rfl, rfl, rfl, rfl⟩

theorem powerUpPickup_pres (g : Game) (nh : Point) :
    (powerUpPickup g nh).snake = g.snake ∧ (powerUpPickup g nh).dir = g.dir ∧
    (powerUpPickup g nh).nextDir = g.nextDir ∧
    (powerUpPickup g nh).state = g.state ∧
    (powerUpPickup g nh).combo = g.combo ∧
    (powerUpPickup g nh).comboTimer = g.comboTimer ∧
    (powerUpPickup g nh).food = g.food ∧
    (powerUpPickup g nh).grow = g.grow ∧
    (powerUpPickup g nh).frame = g.frame := by
  simp only [powerUpPickup]
  split_ifs <;> simp

theorem growPhase_pres (g : Game) :
    ((growPhase g).snake = g.snake ∨ (growPhase g).snake = g.snake.dropLast) ∧
    (growPhase g).dir = g.dir ∧ (growPhase g).nextDir = g.nextDir ∧
    (growPhase g).state = g.state ∧ (growPhase g).combo = g.combo ∧
    (growPhase g).comboTimer = g.comboTimer ∧ (growPhase g).food = g.food ∧
    (growPhase g).frame = g.frame := by
  simp only [growPhase]
  split_ifs <;> simp

/-- After any successful `movePhase`, either nothing moved (non-movement
tick) or the pending direction was committed; the pending direction
itself is never altered. -/
theorem movePhase_dirs (p : Game) (i : Input) (g' : Game)
    (h : movePhase p i = some g') :
    (g'.dir = p.dir ∧ g'.nextDir = p.nextDir) ∨
    (g'.dir = p.nextDir ∧ g'.nextDir = p.nextDir) := by
  simp only [movePhase] at h
  split_ifs at h
  · cases h; left; exact ⟨rfl, rfl⟩
  · split at h
    · cases h
    · split_ifs at h
      · cases h; right; exact ⟨rfl, rfl⟩
      · split at h
        · cases h
        · rename_i gf hf
          cases h
          refine Or.inr ⟨?_, ?_⟩
          · rw [(growPhase_pres _).2.1, (powerUpPickup_pres _ _).2.1,
                (foodPhase_pres _ _ _ _ hf).2.1]
          · rw [(growPhase_pres _).2.2.1, (powerUpPickup_pres _ _).2.2.1,
                (foodPhase_pres _ _ _ _ hf).2.2.1]

theorem updatePre_dirs (g : Game) (i : Input) (p : Game)
    (h : updatePre g i = some p) :
    p.nextDir = (applyDirInput (applySpeedKeys g i) i).nextDir := by
  simp only [updatePre] at h
  have hD := applyTimers_core { applyDirInput (applySpeedKeys g i) i with
    frame := (applyDirInput (applySpeedKeys g i) i).frame + 1 }
  have hE := powerUpPhase_core _ i p h
  rw [hE.2.2.1, hD.2.2.1]

/-- **C3.** With the direction invariant in force (unit directions,
pending never the reverse of committed): pressing exactly the key for the
reverse of the committed direction leaves the pending direction
unchanged, and after any successful tick the committed direction is never
the exact opposite of the previously committed direction — and the
invariant persists. -/
theorem claim3_no_reversal (g : Game) (i : Input) (hinv : DirInv g) :
    (applyDirInput g (dirRequest (reverseDir g.dir))).nextDir = g.nextDir ∧
    (∀ g', updateGameplay g i = some g' →
      g'.dir ≠ reverseDir g.dir ∧ DirInv g') := by
  constructor
  · rcases hinv.1 with h | h | h | h <;>
      simp [applyDirInput, dirRequest, reverseDir, h, inp0]
  · intro g' hg'
    unfold updateGameplay at hg'
    split_ifs at hg'
    · cases hg'
      exact ⟨unit_ne_reverse hinv.1, hinv.1, hinv.2.1, hinv.2.2⟩
    · revert hg'
      cases hpre : updatePre g i with
      | none => intro hg'; cases hg'
      | some p =>
        intro hg'
        have hcore := (updatePre_core g i p hpre).1
        have hdir : p.dir = g.dir := hcore.2.2.2.2.2.2.2.2
        have hnd := updatePre_dirs g i p hpre
        have hask := applySpeedKeys_core g i
        have haskd : (applySpeedKeys g i).dir = g.dir :=
          hask.1.2.2.2.2.2.2.2.2
        have hasknd : (applySpeedKeys g i).nextDir = g.nextDir := hask.2.2.1
        have hpu : isUnitDir p.nextDir := by
          rw [hnd]
          exact applyDirInput_unit _ i (by rw [hasknd]; exact hinv.2.1)
        have hpnr : p.nextDir ≠ reverseDir g.dir := by
          rw [hnd]
          have := applyDirInput_not_reverse (applySpeedKeys g i) i
            (by rw [hasknd, haskd]; exact hinv.2.2)
          rw [haskd] at this
          exact this
        rcases movePhase_dirs p i g' hg' with ⟨hd, hn⟩ | ⟨hd, hn⟩
        · have hd' : g'.dir = g.dir := by rw [hd, hdir]
          refine ⟨?_, ?_, ?_, ?_⟩
          · rw [hd']; exact unit_ne_reverse hinv.1
          · rw [hd']; exact hinv.1
          · rw [hn]; exact hpu
          · rw [hn, hd']; exact hpnr
        · refine ⟨?_, ?_, ?_, ?_⟩
          · rw [hd]; exact hpnr
          · rw [hd]; exact hpu
          · rw [hn]; exact hpu
          · rw [hn, hd]; exact unit_ne_reverse hpu

theorem claim4_witness :
    updateGameplay gW4 inp0 = some { gW4 with frame := 5 } ∧
    ({ gW4 with frame := 5 } : Game).snake = gW4.snake :=
  claim4_non_movement_tick gW4 inp0 { gW4 with frame := 5 }
    rfl (by decide) (by decide) (by decide)

theorem claim3_witness :
    DirInv gW4 ∧
    (applyDirInput gW4 (dirRequest (reverseDir gW4.dir))).nextDir = gW4.nextDir ∧
    (({ gW4 with frame := 5 } : Game).dir ≠ reverseDir gW4.dir ∧
      DirInv { gW4 with frame := 5 }) :=
  ⟨by decide,
   (claim3_no_reversal gW4 inp0 (by decide)).1,
   (claim3_no_reversal gW4 inp0 (by decide)).2 { gW4 with frame := 5 }
     (by decide)⟩

theorem foodPhase_pickup (g : Game) (nh : Point) (draws : List Point) (f : Point)
    (hfood : nh = g.food)
    (hplace : placeFoodGo g.snake g.powerUp draws = some f) :
    foodPhase g nh draws =
      some { g with
        grow := g.grow + 2, combo := g.combo + 1,
        maxCombo := (if g.combo + 1 > g.maxCombo then g.combo + 1 else g.maxCombo),
        comboTimer := 120, score := g.score + 1 + (g.combo + 1).tdiv 3,
        food := f } := by
  simp only [foodPhase, if_pos hfood, hplace]

/-- Full effect of an enhanced-variant movement tick that picks up the
food (and nothing else): combo up by one, combo timer reset to 120, score
up by `1 + (combo+1)/3`, net growth counter up by one (2 added at pickup,
1 consumed by the same tick's growth step, so the tail is retained), head
prepended, and the food relocated off the whole post-move body. -/
theorem pickup_tick_enhanced (g : Game) (i : Input) (p : Game)
    (head : Point) (tail : List Point) (f : Point)
    (hpause : i.pauseKey = false)
    (hpre : updatePre g i = some p)
    (hspeed : p.speed ≠ 0)
    (hmove : p.frame.tmod p.speed = 0)
    (hsnake : p.snake = head :: tail)
    (hnocol : ¬(p.invulnerable = 0 ∧
      wrapHead head p.nextDir p.gridW p.gridH ∈ head :: tail))
    (hfood : wrapHead head p.nextDir p.gridW p.gridH = p.food)
    (hpu : p.powerUp.active = true → p.food ≠ p.powerUp.pos)
    (hplace : placeFoodGo (wrapHead head p.nextDir p.gridW p.gridH :: head :: tail)
      p.powerUp i.foodDraws = some f)
    (hg0 : 0 ≤ p.grow) :
    ∃ g', updateGameplay g i = some g' ∧
      g'.combo = g.combo + 1 ∧ g'.comboTimer = 120 ∧
      g'.score = g.score + 1 + (g.combo + 1).tdiv 3 ∧
      g'.grow = g.grow + 1 ∧
      g'.snake = wrapHead head p.nextDir p.gridW p.gridH :: g.snake ∧
      g'.food = f ∧
      g'.food ∉ wrapHead head p.nextDir p.gridW p.gridH :: g.snake ∧
      g'.state = g.state := by
  have hug := updateGameplay_eq_movePhase g i p hpause hpre
  have hcore := (updatePre_core g i p hpre).1
  set nh := wrapHead head p.nextDir p.gridW p.gridH with hnh
  have hfp := foodPhase_pickup
    { p with dir := p.nextDir, snake := nh :: head :: tail } nh i.foodDraws f
    hfood hplace
  set gf : Game :=
    { p with
      dir := p.nextDir, snake := nh :: head :: tail,
      grow := p.grow + 2, combo := p.combo + 1,
      maxCombo := (if p.combo + 1 > p.maxCombo then p.combo + 1 else p.maxCombo),
      comboTimer := 120, score := p.score + 1 + (p.combo + 1).tdiv 3,
      food := f } with hgf
  have hpp : powerUpPickup gf nh = gf := by
    simp only [powerUpPickup]
    rw [if_neg]
    rintro ⟨hact, hpos⟩
    exact hpu hact (hfood ▸ hpos)
  have hgrow : growPhase gf = { gf with grow := p.grow + 1 } := by
    simp only [growPhase]
    rw [if_pos (by show p.grow + 2 > 0; omega)]
    show ({ gf with grow := p.grow + 2 - 1 } : Game) = { gf with grow := p.grow + 1 }
    congr 1
    omega
  refine ⟨{ gf with grow := p.grow + 1 }, ?_, ?_⟩
  · rw [hug]
    unfold movePhase
    rw [if_neg hspeed, if_neg (not_not_intro hmove)]
    simp only [hsnake]
    rw [if_neg hnocol, hfp]
    show some (growPhase (powerUpPickup gf nh)) = _
    rw [hpp, hgrow]
  · have hsg : g.snake = head :: tail := hcore.1 ▸ hsnake
    have hfree := (placeFoodGo_spec _ _ _ _ hplace).1
    refine ⟨?_, rfl, ?_, ?_, ?_, rfl, ?_, ?_⟩
    · show p.combo + 1 = g.combo + 1; rw [hcore.2.2.2.1]
    · show p.score + 1 + (p.combo + 1).tdiv 3 = g.score + 1 + (g.combo + 1).tdiv 3
      rw [hcore.2.2.1, hcore.2.2.2.1]
    · show p.grow + 1 = g.grow + 1; rw [hcore.2.2.2.2.2.2.1]
    · show nh :: head :: tail = nh :: g.snake
      rw [hsg]
    · show f ∉ nh :: g.snake
      rw [hsg]; exact hfree
    · show p.state = g.state; exact hcore.2.2.2.2.2.2.2.1

theorem updateSimple_eq_move (g : Simple.Game) (i : Simple.Input)
    (ht : g.inTitle = false) (hgo : g.gameOver = false) (hp : g.paused = false)
    (hkP : i.keyP = false) (hkE : i.keyEqual = false) (hkM : i.keyMinus = false)
    (hkU : i.keyUp = false) (hkD : i.keyDown = false)
    (hkL : i.keyLeft = false) (hkR : i.keyRight = false) :
    Simple.Update g i = Simple.moveSimple g i := by
  simp [Simple.Update, Simple.applyMetaKeys, Simple.applyDirInput, ht, hgo,
    hp, hkP, hkE, hkM, hkU, hkD, hkL, hkR]

/-- Full effect of a simple-variant movement tick that picks up the food:
combo up by one, combo timer reset to 60, score up by `1 + (combo+1)/2`,
net growth counter up by one, head prepended, food relocated off the
whole post-move body. -/
theorem pickup_tick_simple (g : Simple.Game) (i : Simple.Input)
    (head : Point) (tail : List Point) (f : Point)
    (ht : g.inTitle = false) (hgo : g.gameOver = false) (hp : g.paused = false)
    (hkP : i.keyP = false) (hkE : i.keyEqual = false) (hkM : i.keyMinus = false)
    (hkU : i.keyUp = false) (hkD : i.keyDown = false)
    (hkL : i.keyLeft = false) (hkR : i.keyRight = false)
    (hspeed : g.speed ≠ 0)
    (hmove : (g.frame + 1).tmod g.speed = 0)
    (hsnake : g.snake = head :: tail)
    (hnocol : wrapHead head g.nextDir Simple.gridW Simple.gridH ∉ head :: tail)
    (hfood : wrapHead head g.nextDir Simple.gridW Simple.gridH = g.food)
    (hplace : Simple.placeFoodGo
      (wrapHead head g.nextDir Simple.gridW Simple.gridH :: head :: tail)
      i.foodDraws = some f)
    (hg0 : 0 ≤ g.grow) :
    ∃ g', Simple.Update g i = some g' ∧
      g'.combo = g.combo + 1 ∧ g'.comboTimer = 60 ∧
      g'.score = g.score + 1 + (g.combo + 1).tdiv 2 ∧
      g'.grow = g.grow + 1 ∧
      g'.snake = wrapHead head g.nextDir Simple.gridW Simple.gridH :: g.snake ∧
      g'.food = f ∧
      g'.food ∉ wrapHead head g.nextDir Simple.gridW Simple.gridH :: g.snake := by
  have hug := updateSimple_eq_move g i ht hgo hp hkP hkE hkM hkU hkD hkL hkR
  set nh := wrapHead head g.nextDir Simple.gridW Simple.gridH with hnh
  set gfS : Simple.Game :=
    { g with
      frame := g.frame + 1, dir := g.nextDir, snake := nh :: head :: tail,
      grow := g.grow + 2, combo := g.combo + 1, comboTimer := 60,
      score := g.score + 1 + (g.combo + 1).tdiv 2, food := f } with hgfS
  refine ⟨{ gfS with grow := g.grow + 1 }, ?_, ?_⟩
  · rw [hug]
    unfold Simple.moveSimple
    rw [if_neg hspeed, if_neg (not_not_intro hmove)]
    simp only [hsnake]
    rw [if_neg hnocol, if_pos hfood, hplace]
    show (if gfS.grow > 0 then some { gfS with grow := gfS.grow - 1 }
          else
            match gfS.snake with
            | [] => none
            | _ :: _ => some { gfS with snake := gfS.snake.dropLast }) =
      some { gfS with grow := g.grow + 1 }
    rw [if_pos (show gfS.grow > 0 by show g.grow + 2 > 0; omega)]
    show some ({ gfS with grow := g.grow + 2 - 1 } : Simple.Game) = _
    congr 2
    omega
  · have hfree := placeFoodGoS_spec _ _ _ hplace
    refine ⟨rfl, rfl, rfl, rfl, ?_, rfl, ?_⟩
    · show nh :: head :: tail = nh :: g.snake
      rw [hsnake]
    · show f ∉ nh :: g.snake
      rw [hsnake]; exact hfree

/-- The spec's example state on the enhanced variant: grid 10×10, snake
`[(5,5),(4,5),(3,5)]`, direction Right, food `(6,5)`, about to take a
movement tick (frame becomes 4, speed 4). -/
def gEx : Game :=
  { gridW := 10, gridH := 10, snake := [⟨5, 5⟩, ⟨4, 5⟩, ⟨3, 5⟩],
    dir := ⟨1, 0⟩, nextDir := ⟨1, 0⟩, grow := 0, food := ⟨6, 5⟩,
    powerUp := ⟨⟨0, 0⟩, 0, 0, false⟩, frame := 3, speed := 4, baseSpeed := 4,
    score := 0, combo := 0, maxCombo := 0, comboTimer := 0,
    state := GState.playing, speedBoostTime := 0, slowMotionTime := 0,
    invulnerable := 0 }

/-- Input for the example tick: no keys, the food-relocation draw is `(0,0)`. -/
def iEx : Input := { inp0 with foodDraws := [⟨0, 0⟩] }

/-- `gEx` after the pre-movement phase of the example tick. -/
def pEx : Game := { gEx with frame := 4 }

/-- **C5 (counterexample).** From the spec's example state, one full
movement-tick `updateGameplay` leaves the growth counter at 1, not 2:
the pickup adds 2 but the same tick's growth step consumes one unit. -/
theorem claim5_counterexample :
    (updateGameplay gEx iEx).map Game.grow = some 1 ∧
    (updateGameplay gEx iEx).map Game.grow ≠ some 2 := by decide

/-- **C5 (amended).** On a movement tick whose new head is the food, both
variants increment the combo streak, reset the combo countdown (120
enhanced / 60 simple), add `1 + bonus(streak+1)` to the score (`/3`
enhanced, `/2` simple, integer division on the post-increment streak) and
relocate the food off the post-move body; the growth counter is raised by
2 at pickup but the same tick's growth step consumes one unit, so the
tick's net effect is growth counter + 1 with the tail retained. -/
theorem claim5_food_pickup :
    (∀ (g : Game) (i : Input) (p : Game) (head : Point) (tail : List Point)
      (f : Point), i.pauseKey = false → updatePre g i = some p →
      p.speed ≠ 0 → p.frame.tmod p.speed = 0 → p.snake = head :: tail →
      ¬(p.invulnerable = 0 ∧
        wrapHead head p.nextDir p.gridW p.gridH ∈ head :: tail) →
      wrapHead head p.nextDir p.gridW p.gridH = p.food →
      (p.powerUp.active = true → p.food ≠ p.powerUp.pos) →
      placeFoodGo (wrapHead head p.nextDir p.gridW p.gridH :: head :: tail)
        p.powerUp i.foodDraws = some f →
      0 ≤ p.grow →
      ∃ g', updateGameplay g i = some g' ∧
        g'.combo = g.combo + 1 ∧ g'.comboTimer = 120 ∧
        g'.score = g.score + 1 + (g.combo + 1).tdiv 3 ∧
        g'.grow = g.grow + 1 ∧
        g'.snake = wrapHead head p.nextDir p.gridW p.gridH :: g.snake ∧
        g'.food = f ∧
        g'.food ∉ wrapHead head p.nextDir p.gridW p.gridH :: g.snake ∧
        g'.state = g.state) ∧
    (∀ (g : Simple.Game) (i : Simple.Input) (head : Point)
      (tail : List Point) (f : Point),
      g.inTitle = false → g.gameOver = false → g.paused = false →
      i.keyP = false → i.keyEqual = false → i.keyMinus = false →
      i.keyUp = false → i.keyDown = false → i.keyLeft = false →
      i.keyRight = false → g.speed ≠ 0 → (g.frame + 1).tmod g.speed = 0 →
      g.snake = head :: tail →
      wrapHead head g.nextDir Simple.gridW Simple.gridH ∉ head :: tail →
      wrapHead head g.nextDir Simple.gridW Simple.gridH = g.food →
      Simple.placeFoodGo
        (wrapHead head g.nextDir Simple.gridW Simple.gridH :: head :: tail)
        i.foodDraws = some f →
      0 ≤ g.grow →
      ∃ g', Simple.Update g i = some g' ∧
        g'.combo = g.combo + 1 ∧ g'.comboTimer = 60 ∧
        g'.score = g.score + 1 + (g.combo + 1).tdiv 2 ∧
        g'.grow = g.grow + 1 ∧
        g'.snake = wrapHead head g.nextDir Simple.gridW Simple.gridH :: g.snake ∧
        g'.food = f ∧
        g'.food ∉ wrapHead head g.nextDir Simple.gridW Simple.gridH :: g.snake) :=
  ⟨fun g i p head tail f h1 h2 h3 h4 h5 h6 h7 h8 h9 h10 =>
    pickup_tick_enhanced g i p head tail f h1 h2 h3 h4 h5 h6 h7 h8 h9 h10,
   fun g i head tail f h1 h2 h3 h4 h5 h6 h7 h8 h9 h10 h11 h12 h13 h14 h15 h16 h17 =>
    pickup_tick_simple g i head tail f h1 h2 h3 h4 h5 h6 h7 h8 h9 h10 h11 h12
      h13 h14 h15 h16 h17⟩

/-- The spec's example state on the simple variant (fixed 32×24 grid). -/
def gExS : Simple.Game :=
  { snake := [⟨5, 5⟩, ⟨4, 5⟩, ⟨3, 5⟩], dir := ⟨1, 0⟩, nextDir := ⟨1, 0⟩,
    grow := 0, food := ⟨6, 5⟩, frame := 3, speed := 4, score := 0,
    highScore := 0, gameOver := false, paused := false, inTitle := false,
    combo := 0, comboTimer := 0 }

/-- Input for the simple example tick. -/
def iExS : Simple.Input :=
  { keyEnter := false, keySpace := false, keyR := false, keyP := false,
    keyEqual := false, keyMinus := false, keyUp := false, keyDown := false,
    keyLeft := false, keyRight := false, foodDraws := [⟨0, 0⟩] }

theorem claim5_witness :
    (∃ g', updateGameplay gEx iEx = some g' ∧
      g'.combo = gEx.combo + 1 ∧ g'.comboTimer = 120 ∧
      g'.score = gEx.score + 1 + (gEx.combo + 1).tdiv 3 ∧
      g'.grow = gEx.grow + 1 ∧
      g'.snake = wrapHead ⟨5, 5⟩ pEx.nextDir pEx.gridW pEx.gridH :: gEx.snake ∧
      g'.food = ⟨0, 0⟩ ∧
      g'.food ∉ wrapHead ⟨5, 5⟩ pEx.nextDir pEx.gridW pEx.gridH :: gEx.snake ∧
      g'.state = gEx.state) ∧
    (∃ g', Simple.Update gExS iExS = some g' ∧
      g'.combo = gExS.combo + 1 ∧ g'.comboTimer = 60 ∧
      g'.score = gExS.score + 1 + (gExS.combo + 1).tdiv 2 ∧
      g'.grow = gExS.grow + 1 ∧
      g'.snake = wrapHead ⟨5, 5⟩ gExS.nextDir Simple.gridW Simple.gridH :: gExS.snake ∧
      g'.food = ⟨0, 0⟩ ∧
      g'.food ∉ wrapHead ⟨5, 5⟩ gExS.nextDir Simple.gridW Simple.gridH :: gExS.snake) :=
  ⟨claim5_food_pickup.1 gEx iEx pEx ⟨5, 5⟩ [⟨4, 5⟩, ⟨3, 5⟩] ⟨0, 0⟩
    rfl (by decide) (by decide) (by decide) rfl (by decide) (by decide)
    (by decide) (by decide) (by decide),
   claim5_food_pickup.2 gExS iExS ⟨5, 5⟩ [⟨4, 5⟩, ⟨3, 5⟩] ⟨0, 0⟩
    rfl rfl rfl rfl rfl rfl rfl rfl rfl rfl (by decide) (by decide) rfl
    (by decide) (by decide) (by decide) (by decide)⟩

/-- Does the movement part of a tick (given the post-prelude state `p`)
move the snake and land the new head on the food? -/
def movePickup (p : Game) : Bool :=
  if p.speed = 0 then false
  else if p.frame.tmod p.speed ≠ 0 then false
  else
    match p.snake with
    | [] => false
    | head :: tail =>
      if p.invulnerable = 0 ∧ wrapHead head p.nextDir p.gridW p.gridH ∈ head :: tail
      then false
      else decide (wrapHead head p.nextDir p.gridW p.gridH = p.food)

/-- Does the movement part of a tick miss the food with the combo
countdown lapsing (the branch that clears the streak)? -/
def moveExpiry (p : Game) : Bool :=
  if p.speed = 0 then false
  else if p.frame.tmod p.speed ≠ 0 then false
  else
    match p.snake with
    | [] => false
    | head :: tail =>
      if p.invulnerable = 0 ∧ wrapHead head p.nextDir p.gridW p.gridH ∈ head :: tail
      then false
      else decide (wrapHead head p.nextDir p.gridW p.gridH ≠ p.food) &&
           decide (p.comboTimer - 1 ≤ 0)

theorem foodPhase_combo (g : Game) (nh : Point) (draws : List Point) (g2 : Game)
    (h : foodPhase g nh draws = some g2) :
    (nh = g.food → g2.combo = g.combo + 1 ∧ g2.comboTimer = 120) ∧
    (nh ≠ g.food →
      g2.combo = (if g.comboTimer - 1 ≤ 0 then 0 else g.combo) ∧
      g2.comboTimer = g.comboTimer - 1) := by
  simp only [foodPhase] at h
  split_ifs at h with hf hmax hle
  · revert h; split
    · intro h; cases h
    · intro h; cases h; exact ⟨fun _ => ⟨rfl, rfl⟩, fun hne => absurd hf hne⟩
  · revert h; split
    · intro h; cases h
    · intro h; cases h; exact ⟨fun _ => ⟨rfl, rfl⟩, fun hne => absurd hf hne⟩
  · cases h
    exact ⟨fun hc => absurd hc hf, fun _ => ⟨by rw [if_pos hle], rfl⟩⟩
  · cases h
    exact ⟨fun hc => absurd hc hf, fun _ => ⟨by rw [if_neg hle], rfl⟩⟩

theorem movePhase_combo (p : Game) (i : Input) (g' : Game)
    (h : movePhase p i = some g') :
    (movePickup p = true → g'.combo = p.combo + 1 ∧ g'.comboTimer = 120) ∧
    (movePickup p = false → moveExpiry p = false → g'.combo = p.combo) ∧
    (moveExpiry p = true → g'.combo = 0) := by
  simp only [movePhase] at h
  split_ifs at h with h1 h2
  · -- non-movement tick (the `speed = 0` case is discharged by `split_ifs`)
    cases h
    have hpv : movePickup p = false := by
      unfold movePickup; rw [if_neg h1, if_pos h2]
    have hev : moveExpiry p = false := by
      unfold moveExpiry; rw [if_neg h1, if_pos h2]
    simp [hpv, hev]
  · -- movement tick
    revert h
    split
    · intro h; cases h
    · rename_i head tail heq
      intro h
      split_ifs at h with hcol
      · -- self-collision: game over, combo untouched
        cases h
        have hpv : movePickup p = false := by
          unfold movePickup; rw [if_neg h1, if_neg h2]
          simp only [heq]; rw [if_pos hcol]
        have hev : moveExpiry p = false := by
          unfold moveExpiry; rw [if_neg h1, if_neg h2]
          simp only [heq]; rw [if_pos hcol]
        simp [hpv, hev]
      · -- committed move: analyze the food phase
        revert h
        split
        · intro h; cases h
        · rename_i gmid heq2
          intro h
          cases h
          have hfc := foodPhase_combo _ _ _ _ heq2
          have hcombo :
              (growPhase (powerUpPickup gmid
                (wrapHead head p.nextDir p.gridW p.gridH))).combo = gmid.combo := by
            rw [(growPhase_pres _).2.2.2.2.1, (powerUpPickup_pres _ _).2.2.2.2.1]
          have htimer :
              (growPhase (powerUpPickup gmid
                (wrapHead head p.nextDir p.gridW p.gridH))).comboTimer
                = gmid.comboTimer := by
            rw [(growPhase_pres _).2.2.2.2.2.1, (powerUpPickup_pres _ _).2.2.2.2.2.1]
          by_cases hfood : wrapHead head p.nextDir p.gridW p.gridH = p.food
          · have hpv : movePickup p = true := by
              unfold movePickup; rw [if_neg h1, if_neg h2]
              simp only [heq]; rw [if_neg hcol]
              exact decide_eq_true hfood
            have hev : moveExpiry p = false := by
              unfold moveExpiry; rw [if_neg h1, if_neg h2]
              simp only [heq]; rw [if_neg hcol]
              rw [decide_eq_false (not_not_intro hfood)]
              exact Bool.false_and _
            have hgc := hfc.1 hfood
            refine ⟨fun _ => ⟨?_, ?_⟩,
              fun hc _ => Bool.noConfusion (hpv.symm.trans hc),
              fun hc => Bool.noConfusion (hev.symm.trans hc)⟩
            · rw [hcombo]; exact hgc.1
            · rw [htimer]; exact hgc.2
          · have hpv : movePickup p = false := by
              unfold movePickup; rw [if_neg h1, if_neg h2]
              simp only [heq]; rw [if_neg hcol]
              exact decide_eq_false hfood
            have hev : moveExpiry p = decide (p.comboTimer - 1 ≤ 0) := by
              unfold moveExpiry; rw [if_neg h1, if_neg h2]
              simp only [heq]; rw [if_neg hcol]
              rw [decide_eq_true hfood]
              exact Bool.true_and _
            have hgc := (hfc.2 hfood).1
            by_cases hle : p.comboTimer - 1 ≤ 0
            · refine ⟨fun hc => Bool.noConfusion (hpv.symm.trans hc),
                fun _ hc => Bool.noConfusion
                  (hc.symm.trans (hev.trans (decide_eq_true hle))),
                fun _ => ?_⟩
              rw [hcombo, hgc, if_pos hle]
            · refine ⟨fun hc => Bool.noConfusion (hpv.symm.trans hc),
                fun _ _ => ?_,
                fun hc => Bool.noConfusion
                  ((hev.trans (decide_eq_false hle)).symm.trans hc)⟩
              rw [hcombo, hgc, if_neg hle]

/-- Is this whole tick a food pickup? -/
def isPickupTick (g : Game) (i : Input) : Bool :=
  if i.pauseKey = true then false
  else
    match updatePre g i with
    | none => false
    | some p => movePickup p

/-- Does this whole tick clear the combo streak (movement tick, no
pickup, countdown lapsed)? -/
def isExpiryTick (g : Game) (i : Input) : Bool :=
  if i.pauseKey = true then false
  else
    match updatePre g i with
    | none => false
    | some p => moveExpiry p

/-- Combo bookkeeping of one full tick: a pickup tick increments the
streak and resets the countdown to 120; a tick that is neither a pickup
nor an expiry leaves the streak unchanged; an expiry tick clears it. -/
theorem tick_combo (g : Game) (i : Input) (g' : Game)
    (h : updateGameplay g i = some g') :
    (isPickupTick g i = true → g'.combo = g.combo + 1 ∧ g'.comboTimer = 120) ∧
    (isPickupTick g i = false → isExpiryTick g i = false → g'.combo = g.combo) ∧
    (isExpiryTick g i = true → g'.combo = 0) := by
  unfold updateGameplay at h
  unfold isPickupTick isExpiryTick
  by_cases hp : i.pauseKey = true
  · rw [if_pos hp] at h
    cases h
    simp [hp]
  · rw [if_neg hp] at h
    rw [if_neg hp, if_neg hp]
    cases hpre : updatePre g i with
    | none => rw [hpre] at h; cases h
    | some p =>
      rw [hpre] at h
      simp only [hpre]
      have hcg : p.combo = g.combo := (updatePre_core g i p hpre).1.2.2.2.1
      have hmc := movePhase_combo p i g' h
      rw [hcg] at hmc
      exact hmc

/-- Number of pickup ticks along a run (`none` if a tick fails). -/
def countPickups : Game → List Input → Option Nat
  | _, [] => some 0
  | g, i :: is =>
    match updateGameplay g i with
    | none => none
    | some g' =>
      match countPickups g' is with
      | none => none
      | some n => some ((if isPickupTick g i = true then 1 else 0) + n)

/-- Does no tick of the run clear the combo streak? -/
def noExpiry : Game → List Input → Bool
  | _, [] => true
  | g, i :: is =>
    match updateGameplay g i with
    | none => true
    | some g' => !(isExpiryTick g i) && noExpiry g' is

theorem combo_count (is : List Input) :
    ∀ (g g' : Game) (n : Nat), runTicks g is = some g' →
      noExpiry g is = true → countPickups g is = some n →
      g'.combo = g.combo + n := by
  induction is with
  | nil =>
    intro g g' n hrun hexp hcount
    rw [runTicks] at hrun
    cases hrun
    rw [countPickups] at hcount
    cases hcount
    simp
  | cons i is ih =>
    intro g g' n hrun hexp hcount
    rw [runTicks] at hrun
    rw [noExpiry] at hexp
    rw [countPickups] at hcount
    cases hstep : updateGameplay g i with
    | none => rw [hstep] at hrun; cases hrun
    | some g1 =>
      rw [hstep] at hrun hexp hcount
      dsimp only at hrun hexp hcount
      cases hcnt : countPickups g1 is with
      | none => rw [hcnt] at hcount; cases hcount
      | some m =>
        rw [hcnt] at hcount
        dsimp only at hcount
        cases hcount
        have hih := ih g1 g' m hrun
          ((Bool.and_eq_true _ _ |>.mp hexp).2) hcnt
        have htc := tick_combo g i g1 hstep
        have hexp1 : isExpiryTick g i = false := by
          have := (Bool.and_eq_true _ _ |>.mp hexp).1
          cases hx : isExpiryTick g i
          · rfl
          · rw [hx] at this; cases this
        by_cases hpk : isPickupTick g i = true
        · have h1 := (htc.1 hpk).1
          rw [if_pos hpk]
          rw [hih, h1]
          push_cast
          ring
        · have hpkf : isPickupTick g i = false := by
            cases hx : isPickupTick g i
            · rfl
            · exact absurd hx hpk
          have h1 := htc.2.1 hpkf hexp1
          rw [if_neg hpk]
          rw [hih, h1]
          push_cast
          ring

/-- **C6.** Starting from combo streak 0, a run whose ticks never let the
combo countdown lapse ends with streak equal to the number of pickup
ticks; and on a movement tick that misses the food with the countdown
lapsing, the streak is reset to 0. -/
theorem claim6_combo_accounting :
    (∀ (g : Game) (is : List Input) (g' : Game) (n : Nat),
      g.combo = 0 → runTicks g is = some g' → noExpiry g is = true →
      countPickups g is = some n → g'.combo = n) ∧
    (∀ (g : Game) (i : Input) (g' : Game),
      isExpiryTick g i = true → updateGameplay g i = some g' →
      g'.combo = 0) :=
  ⟨fun g is g' n h0 hrun hexp hcount => by
      have := combo_count is g g' n hrun hexp hcount
      rw [h0] at this
      simpa using this,
   fun g i g' hexp hstep => (tick_combo g i g' hstep).2.2 hexp⟩

/-- A 5-tick run from `gEx`: two pickup movement ticks (frames 4 and 8)
with three non-movement ticks between them. -/
def tr6 : List Input :=
  [{ inp0 with foodDraws := [⟨7, 5⟩] }, inp0, inp0, inp0,
   { inp0 with foodDraws := [⟨0, 0⟩] }]

/-- The state reached by running `tr6` from `gEx`. -/
def g6final : Game :=
  { gridW := 10, gridH := 10,
    snake := [⟨7, 5⟩, ⟨6, 5⟩, ⟨5, 5⟩, ⟨4, 5⟩, ⟨3, 5⟩],
    dir := ⟨1, 0⟩, nextDir := ⟨1, 0⟩, grow := 2, food := ⟨0, 0⟩,
    powerUp := ⟨⟨0, 0⟩, 0, 0, false⟩, frame := 8, speed := 4, baseSpeed := 4,
    score := 2, combo := 2, maxCombo := 2, comboTimer := 120,
    state := GState.playing, speedBoostTime := 0, slowMotionTime := 0,
    invulnerable := 0 }

/-- A configuration whose next movement tick misses the food with the
combo countdown lapsing. -/
def gW6e : Game := { gEx with food := ⟨9, 9⟩, combo := 1, comboTimer := 1 }

theorem claim6_witness :
    (runTicks gEx tr6 = some g6final ∧ g6final.combo = 2) ∧
    (updateGameplay gW6e inp0 = some { gW6e with snake := [⟨6, 5⟩, ⟨5, 5⟩, ⟨4, 5⟩], frame := 4, comboTimer := 0, combo := 0 } ∧
      ({ gW6e with snake := [⟨6, 5⟩, ⟨5, 5⟩, ⟨4, 5⟩], frame := 4, comboTimer := 0, combo := 0 } : Game).combo = 0) :=
  ⟨⟨by decide,
    claim6_combo_accounting.1 gEx tr6 g6final 2 rfl (by decide) (by decide)
      (by decide)⟩,
   ⟨by decide,
    claim6_combo_accounting.2 gW6e inp0 { gW6e with snake := [⟨6, 5⟩, ⟨5, 5⟩, ⟨4, 5⟩], frame := 4, comboTimer := 0, combo := 0 }
      (by decide) (by decide)⟩⟩

/-- **C7.** Whenever a food-placement loop returns, the chosen cell is
off the snake body — for any snake configuration — and, in the enhanced
(power-up) variant, also off an active power-up. -/
theorem claim7_food_placement :
    (∀ (snake : List Point) (pu : PowerUp) (draws : List Point) (f : Point),
      placeFoodGo snake pu draws = some f →
      f ∉ snake ∧ (pu.active = true → f ≠ pu.pos)) ∧
    (∀ (snake draws : List Point) (f : Point),
      Simple.placeFoodGo snake draws = some f → f ∉ snake) :=
  ⟨fun snake pu draws f h => placeFoodGo_spec snake pu draws f h,
   fun snake draws f h => placeFoodGoS_spec snake draws f h⟩

theorem claim7_witness :
    ((⟨3, 0⟩ : Point) ∉ [(⟨0, 0⟩ : Point), ⟨1, 0⟩] ∧
      ((⟨⟨2, 0⟩, 0, 100, true⟩ : PowerUp).active = true →
        (⟨3, 0⟩ : Point) ≠ (⟨⟨2, 0⟩, 0, 100, true⟩ : PowerUp).pos)) ∧
    (⟨1, 0⟩ : Point) ∉ [(⟨0, 0⟩ : Point)] :=
  ⟨claim7_food_placement.1 [⟨0, 0⟩, ⟨1, 0⟩] ⟨⟨2, 0⟩, 0, 100, true⟩
      [⟨0, 0⟩, ⟨2, 0⟩, ⟨3, 0⟩] ⟨3, 0⟩ (by decide),
   claim7_food_placement.2 [⟨0, 0⟩] [⟨0, 0⟩, ⟨1, 0⟩] ⟨1, 0⟩ (by decide)⟩

theorem placeFoodGo_ret (snake : List Point) (pu : PowerUp) :
    ∀ draws, (∃ f ∈ draws, f ∉ snake ∧ (pu.active = true → f ≠ pu.pos)) →
      ∃ f, placeFoodGo snake pu draws = some f := by
  intro draws
  induction draws with
  | nil => rintro ⟨f, hf, _⟩; cases hf
  | cons d rest ih =>
    rintro ⟨f, hf, hprop⟩
    rw [placeFoodGo]
    split
    · exact ⟨d, rfl⟩
    · rename_i hrej
      rcases List.mem_cons.mp hf with rfl | hmem
      · exfalso
        apply hrej
        refine ⟨hprop.1, ?_⟩
        by_cases ha : pu.active = true
        · exact Or.inl fun he => hprop.2 ha he.symm
        · exact Or.inr (by revert ha; cases pu.active <;> simp)
      · exact ih ⟨f, hmem, hprop⟩

theorem placeFoodGo_stuck (snake : List Point) (pu : PowerUp) :
    ∀ draws, (∀ p ∈ draws, p ∈ snake ∨ (pu.active = true ∧ p = pu.pos)) →
      placeFoodGo snake pu draws = none := by
  intro draws
  induction draws with
  | nil => intro _; rfl
  | cons d rest ih =>
    intro hall
    rw [placeFoodGo]
    rw [if_neg]
    · exact ih fun p hp => hall p (List.mem_cons_of_mem d hp)
    · rintro ⟨hns, hor⟩
      rcases hall d (List.mem_cons_self d rest) with hin | ⟨hact, rfl⟩
      · exact hns hin
      · rcases hor with hne | hfa
        · exact hne rfl
        · rw [hact] at hfa; cases hfa

theorem placePowerUpGo_ret (snake : List Point) (food : Point) :
    ∀ draws, (∃ p ∈ draws, p ≠ food ∧ p ∉ snake) →
      ∃ p, placePowerUpGo snake food draws = some p := by
  intro draws
  induction draws with
  | nil => rintro ⟨p, hp, _⟩; cases hp
  | cons d rest ih =>
    rintro ⟨p, hp, hprop⟩
    rw [placePowerUpGo]
    split
    · rename_i hdf
      rcases List.mem_cons.mp hp with rfl | hmem
      · exact absurd hdf hprop.1
      · exact ih ⟨p, hmem, hprop⟩
    · split
      · rename_i hdm
        rcases List.mem_cons.mp hp with rfl | hmem
        · exact absurd hdm hprop.2
        · exact ih ⟨p, hmem, hprop⟩
      · exact ⟨d, rfl⟩

theorem placePowerUpGo_stuck (snake : List Point) (food : Point) :
    ∀ draws, (∀ p ∈ draws, p = food ∨ p ∈ snake) →
      placePowerUpGo snake food draws = none := by
  intro draws
  induction draws with
  | nil => intro _; rfl
  | cons d rest ih =>
    intro hall
    rw [placePowerUpGo]
    split
    · exact ih fun p hp => hall p (List.mem_cons_of_mem d hp)
    · split
      · exact ih fun p hp => hall p (List.mem_cons_of_mem d hp)
      · rename_i hdf hdm
        rcases hall d (List.mem_cons_self d rest) with rfl | hin
        · exact absurd rfl hdf
        · exact absurd hin hdm

theorem placeFoodGoS_ret (snake : List Point) :
    ∀ draws, (∃ f ∈ draws, f ∉ snake) →
      ∃ f, Simple.placeFoodGo snake draws = some f := by
  intro draws
  induction draws with
  | nil => rintro ⟨f, hf, _⟩; cases hf
  | cons d rest ih =>
    rintro ⟨f, hf, hprop⟩
    rw [Simple.placeFoodGo]
    split
    · exact ⟨d, rfl⟩
    · rename_i hrej
      rcases List.mem_cons.mp hf with rfl | hmem
      · exact absurd hprop hrej
      · exact ih ⟨f, hmem, hprop⟩

theorem placeFoodGoS_stuck (snake : List Point) :
    ∀ draws, (∀ p ∈ draws, p ∈ snake) →
      Simple.placeFoodGo snake draws = none := by
  intro draws
  induction draws with
  | nil => intro _; rfl
  | cons d rest ih =>
    intro hall
    rw [Simple.placeFoodGo]
    rw [if_neg (not_not_intro (hall d (List.mem_cons_self d rest)))]
    exact ih fun p hp => hall p (List.mem_cons_of_mem d hp)

/-- **C8 (counterexample).** On a grid whose single cell the snake
covers, neither placement loop has made progress after 100 draws: the Go
`for {}` loop has no exit on a full grid, so the code loops forever
rather than stopping the spawn attempt. -/
theorem claim8_counterexample :
    placeFoodGo [⟨0, 0⟩] ⟨⟨0, 0⟩, 0, 0, false⟩ (List.replicate 100 ⟨0, 0⟩) = none ∧
    Simple.placeFoodGo [⟨0, 0⟩] (List.replicate 100 ⟨0, 0⟩) = none ∧
    placePowerUpGo [⟨0, 0⟩] ⟨0, 0⟩ (List.replicate 100 ⟨0, 0⟩) = none := by
  decide

/-- **C8 (amended).** The rejection-sampling loops return as soon as the
random stream produces an acceptable cell (so they terminate after
finitely many draws whenever a free cell exists and is eventually drawn);
but when no acceptable cell exists, no finite number of draws makes
either loop exit — the code loops forever instead of failing
gracefully. -/
theorem claim8_termination :
    (∀ (snake : List Point) (pu : PowerUp) (draws : List Point),
      (∃ f ∈ draws, f ∉ snake ∧ (pu.active = true → f ≠ pu.pos)) →
      ∃ f, placeFoodGo snake pu draws = some f) ∧
    (∀ (snake : List Point) (food : Point) (draws : List Point),
      (∃ p ∈ draws, p ≠ food ∧ p ∉ snake) →
      ∃ p, placePowerUpGo snake food draws = some p) ∧
    (∀ (snake draws : List Point),
      (∃ f ∈ draws, f ∉ snake) → ∃ f, Simple.placeFoodGo snake draws = some f) ∧
    (∀ (snake : List Point) (pu : PowerUp) (draws : List Point),
      (∀ p ∈ draws, p ∈ snake ∨ (pu.active = true ∧ p = pu.pos)) →
      placeFoodGo snake pu draws = none) ∧
    (∀ (snake : List Point) (food : Point) (draws : List Point),
      (∀ p ∈ draws, p = food ∨ p ∈ snake) →
      placePowerUpGo snake food draws = none) ∧
    (∀ (snake draws : List Point),
      (∀ p ∈ draws, p ∈ snake) → Simple.placeFoodGo snake draws = none) :=
  ⟨fun snake pu draws h => placeFoodGo_ret snake pu draws h,
   fun snake food draws h => placePowerUpGo_ret snake food draws h,
   fun snake draws h => placeFoodGoS_ret snake draws h,
   fun snake pu draws h => placeFoodGo_stuck snake pu draws h,
   fun snake food draws h => placePowerUpGo_stuck snake food draws h,
   fun snake draws h => placeFoodGoS_stuck snake draws h⟩

theorem claim8_witness :
    (∃ f, placeFoodGo [⟨0, 0⟩] ⟨⟨0, 0⟩, 0, 0, false⟩ [⟨0, 0⟩, ⟨1, 0⟩] = some f) ∧
    (∃ p, placePowerUpGo [⟨0, 0⟩] ⟨1, 0⟩ [⟨1, 0⟩, ⟨2, 0⟩] = some p) ∧
    (∃ f, Simple.placeFoodGo [⟨0, 0⟩] [⟨0, 0⟩, ⟨1, 0⟩] = some f) ∧
    placeFoodGo [⟨0, 0⟩] ⟨⟨1, 0⟩, 2, 50, true⟩ [⟨0, 0⟩, ⟨1, 0⟩] = none ∧
    placePowerUpGo [⟨0, 0⟩] ⟨1, 0⟩ [⟨1, 0⟩, ⟨0, 0⟩] = none ∧
    Simple.placeFoodGo [⟨0, 0⟩] [⟨0, 0⟩, ⟨0, 0⟩] = none :=
  ⟨claim8_termination.1 [⟨0, 0⟩] ⟨⟨0, 0⟩, 0, 0, false⟩ [⟨0, 0⟩, ⟨1, 0⟩]
      ⟨⟨1, 0⟩, by decide, by decide⟩,
   claim8_termination.2.1 [⟨0, 0⟩] ⟨1, 0⟩ [⟨1, 0⟩, ⟨2, 0⟩]
      ⟨⟨2, 0⟩, by decide, by decide, by decide⟩,
   claim8_termination.2.2.1 [⟨0, 0⟩] [⟨0, 0⟩, ⟨1, 0⟩]
      ⟨⟨1, 0⟩, by decide, by decide⟩,
   claim8_termination.2.2.2.1 [⟨0, 0⟩] ⟨⟨1, 0⟩, 2, 50, true⟩ [⟨0, 0⟩, ⟨1, 0⟩]
      (by decide),
   claim8_termination.2.2.2.2.1 [⟨0, 0⟩] ⟨1, 0⟩ [⟨1, 0⟩, ⟨0, 0⟩] (by decide),
   claim8_termination.2.2.2.2.2 [⟨0, 0⟩] [⟨0, 0⟩, ⟨0, 0⟩] (by decide)⟩

/-- One tick taken with the invulnerability timer at 0 preserves
pairwise-distinct body cells: the collision check is active, so the new
head cannot coincide with any pre-move cell. -/
theorem tick_nodup (g : Game) (i : Input) (g' : Game)
    (hnd : g.snake.Nodup) (hinv : g.invulnerable = 0)
    (h : updateGameplay g i = some g') : g'.snake.Nodup := by
  unfold updateGameplay at h
  split_ifs at h with hp
  · cases h; exact hnd
  · revert h
    cases hpre : updatePre g i with
    | none => intro h; cases h
    | some p =>
      intro h
      have hpinv : p.invulnerable = 0 := (updatePre_core g i p hpre).2.2 hinv
      have hpsnake : p.snake = g.snake := (updatePre_core g i p hpre).1.1
      simp only [movePhase] at h
      split_ifs at h with h1 h2
      · cases h; rw [hpsnake]; exact hnd
      · revert h
        split
        · intro h; cases h
        · rename_i head tail heq
          intro h
          have hnd2 : (head :: tail).Nodup := by
            rw [← heq, hpsnake]; exact hnd
          split_ifs at h with hcol
          · cases h
            show p.snake.Nodup
            rw [hpsnake]; exact hnd
          · have hnm : wrapHead head p.nextDir p.gridW p.gridH ∉ head :: tail :=
              fun hmem => hcol ⟨hpinv, hmem⟩
            revert h
            split
            · intro h; cases h
            · rename_i gmid heq2
              intro h
              cases h
              have hms := (foodPhase_pres _ _ _ _ heq2).1
              have hnd3 : gmid.snake.Nodup := by
                rw [hms]
                exact List.nodup_cons.mpr ⟨hnm, hnd2⟩
              have hpus := (powerUpPickup_pres gmid
                (wrapHead head p.nextDir p.gridW p.gridH)).1
              rcases (growPhase_pres (powerUpPickup gmid
                (wrapHead head p.nextDir p.gridW p.gridH))).1 with hgs | hgs
              · rw [hgs, hpus]; exact hnd3
              · rw [hgs, hpus]
                exact List.Nodup.sublist (List.dropLast_sublist _) hnd3

/-- Does the invulnerability timer stay at 0 after every tick of the run? -/
def invulnStaysZero : Game → List Input → Bool
  | _, [] => true
  | g, i :: is =>
    match updateGameplay g i with
    | none => true
    | some g' => decide (g'.invulnerable = 0) && invulnStaysZero g' is

theorem run_nodup (is : List Input) :
    ∀ g g', g.snake.Nodup → g.invulnerable = 0 →
      invulnStaysZero g is = true → runTicks g is = some g' →
      g'.snake.Nodup := by
  induction is with
  | nil =>
    intro g g' hnd _ _ hrun
    rw [runTicks] at hrun; cases hrun; exact hnd
  | cons i is ih =>
    intro g g' hnd hinv hz hrun
    rw [runTicks] at hrun
    rw [invulnStaysZero] at hz
    cases hstep : updateGameplay g i with
    | none => rw [hstep] at hrun; cases hrun
    | some g1 =>
      rw [hstep] at hrun hz
      dsimp only at hrun hz
      have hz1 := Bool.and_eq_true _ _ |>.mp hz
      exact ih g1 g' (tick_nodup g i g1 hnd hinv hstep)
        (of_decide_eq_true hz1.1) hz1.2 hrun

/-- `resetGameplay` produces a 3-cell snake with pairwise distinct cells
and a zero invulnerability timer. -/
theorem reset_nodup (g : Game) (i : Input) (gR : Game)
    (h : resetGameplay g i = some gR) :
    gR.snake.Nodup ∧ gR.invulnerable = 0 ∧ gR.snake.length = 3 := by
  simp only [resetGameplay] at h
  revert h
  split
  · intro h; cases h
  · intro h; cases h
    refine ⟨?_, rfl, rfl⟩
    simp [List.nodup_cons, Point.mk.injEq]
    omega

/-- **C9 (amended).** From any fresh reset, along any run in which the
invulnerability timer stays at 0 after each tick (no invulnerability
power-up is consumed), the snake body cells remain pairwise distinct;
a tick taken while the timer is positive can instead duplicate a cell. -/
theorem claim9_body_distinct :
    (∀ (g : Game) (i : Input) (gR : Game), resetGameplay g i = some gR →
      gR.snake.Nodup ∧ gR.invulnerable = 0) ∧
    (∀ (g : Game) (is : List Input) (g' : Game),
      g.snake.Nodup → g.invulnerable = 0 → invulnStaysZero g is = true →
      runTicks g is = some g' → g'.snake.Nodup) :=
  ⟨fun g i gR h => ⟨(reset_nodup g i gR h).1, (reset_nodup g i gR h).2.1⟩,
   fun g is g' hnd hinv hz hrun => run_nodup is g g' hnd hinv hz hrun⟩

/-- Input for the tick whose post-increment frame number is `n`, in the
duplicate-cells run: steer right until frame 300, where the spawn roll
passes and the power-up draw lands the invulnerability power-up directly
in the snake's path; then U-turn (up at 310, left at 320, down at 330)
into the own body while invulnerable. -/
def trInput9 (n : Nat) : Input :=
  { pauseKey := false, speedUpKey := false, speedDownKey := false,
    keyUp := decide (n = 310), keyDown := decide (n = 330),
    keyLeft := decide (n = 320), keyRight := false,
    spawnRoll := decide (n = 300),
    foodDraws := if n = 10 then [⟨5, 20⟩] else [],
    powerDraws := if n = 300 then [⟨14, 12⟩] else [],
    powerTypeDraw := 2 }

/-- The 330-tick input trace of the duplicate-cells run. -/
def trace9 : List Input := (List.range 330).map (fun k => trInput9 (k + 1))

/-- A fresh game about to be reset on a 32×24 grid. -/
def g9pre : Game :=
  { gridW := 32, gridH := 24, snake := [], dir := ⟨0, 0⟩, nextDir := ⟨0, 0⟩,
    grow := 0, food := ⟨0, 0⟩, powerUp := ⟨⟨0, 0⟩, 0, 0, false⟩,
    frame := 0, speed := 0, baseSpeed := 10, score := 0, combo := 0,
    maxCombo := 0, comboTimer := 0, state := GState.titleScreen,
    speedBoostTime := 0, slowMotionTime := 0, invulnerable := 0 }

/-- Reset input: the food draw lands at `(17,12)`, directly in front of
the fresh snake. -/
def i9reset : Input := { inp0 with foodDraws := [⟨17, 12⟩] }

/-- The reset state of the duplicate-cells run. -/
def g9R : Game :=
  { gridW := 32, gridH := 24,
    snake := [⟨16, 12⟩, ⟨15, 12⟩, ⟨14, 12⟩],
    dir := ⟨1, 0⟩, nextDir := ⟨1, 0⟩, grow := 0, food := ⟨17, 12⟩,
    powerUp := ⟨⟨0, 0⟩, 0, 0, false⟩, frame := 0, speed := 10,
    baseSpeed := 10, score := 0, combo := 0, maxCombo := 0, comboTimer := 0,
    state := GState.playing, speedBoostTime := 0, slowMotionTime := 0,
    invulnerable := 0 }

/-- Is the game still in the Playing state after every tick of the run? -/
def runStatePlaying : Game → List Input → Bool
  | _, [] => true
  | g, i :: is =>
    match updateGameplay g i with
    | none => false
    | some g' => decide (g'.state = GState.playing) && runStatePlaying g' is

set_option maxRecDepth 1000000 in
/-- **C9 (counterexample).** A concrete 330-tick run from a fresh reset —
eat one food, collect an invulnerability power-up at frame 300, then
U-turn into the own body — stays in the Playing state throughout yet ends
with the head cell `(13,12)` also present in the tail: the body cells are
not pairwise distinct once a tick is taken with the invulnerability timer
positive. -/
theorem claim9_counterexample :
    resetGameplay g9pre i9reset = some g9R ∧
    runStatePlaying g9R trace9 = true ∧
    (runTicks g9R trace9).map (fun g => decide g.snake.Nodup) = some false ∧
    (runTicks g9R trace9).map Game.snake =
      some [⟨13, 12⟩, ⟨13, 11⟩, ⟨14, 11⟩, ⟨14, 12⟩, ⟨13, 12⟩] := by
  refine ⟨by decide, by decide, by decide, by decide⟩

theorem claim9_witness :
    (g9R.snake.Nodup ∧ g9R.invulnerable = 0) ∧ g6final.snake.Nodup :=
  ⟨claim9_body_distinct.1 g9pre i9reset g9R (by decide),
   claim9_body_distinct.2 gEx tr6 g6final (by decide) (by decide)
     (by decide) (by decide)⟩

/-- Repeated simple-variant `Update` ticks. -/
def runTicksS : Simple.Game → List Simple.Input → Option Simple.Game
  | g, [] => some g
  | g, i :: is =>
    match Simple.Update g i with
    | none => none
    | some g' => runTicksS g' is

theorem applyMetaKeys_pres (g : Simple.Game) (i : Simple.Input) :
    (Simple.applyMetaKeys g i).snake = g.snake ∧
    (Simple.applyMetaKeys g i).score = g.score ∧
    (Simple.applyMetaKeys g i).highScore = g.highScore := by
  simp only [Simple.applyMetaKeys]
  split_ifs <;> simp

theorem applyDirInputS_pres (g : Simple.Game) (i : Simple.Input) :
    (Simple.applyDirInput g i).snake = g.snake ∧
    (Simple.applyDirInput g i).paused = g.paused := by
  simp only [Simple.applyDirInput]
  split_ifs <;> simp

theorem resetSimple_len (g : Simple.Game) (i : Simple.Input)
    (gR : Simple.Game) (h : Simple.reset g i = some gR) :
    gR.snake.length = 3 := by
  simp only [Simple.reset] at h
  revert h
  split
  · intro h; cases h
  · intro h; cases h; rfl

theorem moveSimple_len (g : Simple.Game) (i : Simple.Input)
    (g' : Simple.Game) (hlen : 3 ≤ g.snake.length)
    (h : Simple.moveSimple g i = some g') : 3 ≤ g'.snake.length := by
  simp only [Simple.moveSimple] at h
  by_cases hs : g.speed = 0
  · rw [if_pos hs] at h; cases h
  · rw [if_neg hs] at h
    by_cases hgate : (g.frame + 1).tmod g.speed ≠ 0
    · rw [if_pos hgate] at h; cases h; exact hlen
    · rw [if_neg hgate] at h
      revert h
      split
      · intro h; cases h
      · rename_i head tail heq
        intro h
        have hlen2 : 3 ≤ (head :: tail).length := by rw [← heq]; exact hlen
        by_cases hcol :
            wrapHead head g.nextDir Simple.gridW Simple.gridH ∈ head :: tail
        · rw [if_pos hcol] at h
          cases h
          by_cases hsc : g.score > g.highScore
          · show 3 ≤ (if g.score > g.highScore then _ else _ : Simple.Game).snake.length
            rw [if_pos hsc]; exact hlen
          · show 3 ≤ (if g.score > g.highScore then _ else _ : Simple.Game).snake.length
            rw [if_neg hsc]; exact hlen
        · rw [if_neg hcol] at h
          revert h
          split
          · intro h; cases h
          · rename_i gmid heq2
            intro h
            have hms : gmid.snake =
                wrapHead head g.nextDir Simple.gridW Simple.gridH ::
                  head :: tail := by
              by_cases hf :
                  wrapHead head g.nextDir Simple.gridW Simple.gridH = g.food
              · rw [if_pos hf] at heq2
                revert heq2
                split
                · intro heq2; cases heq2
                · intro heq2; cases heq2; rfl
              · rw [if_neg hf] at heq2
                cases heq2; rfl
            have hlen3 : 4 ≤ gmid.snake.length := by
              rw [hms]
              have := hlen2
              simp only [List.length_cons] at this ⊢
              omega
            by_cases hgrow : gmid.grow > 0
            · rw [if_pos hgrow] at h
              cases h
              show 3 ≤ gmid.snake.length
              omega
            · rw [if_neg hgrow] at h
              revert h
              split
              · rename_i heq3
                rw [hms] at heq3; cases heq3
              · intro h; cases h
                show 3 ≤ gmid.snake.dropLast.length
                rw [List.length_dropLast]
                omega

theorem tickSimple_len (g : Simple.Game) (i : Simple.Input)
    (g' : Simple.Game) (hlen : 3 ≤ g.snake.length)
    (h : Simple.Update g i = some g') : 3 ≤ g'.snake.length := by
  simp only [Simple.Update] at h
  by_cases ht : g.inTitle = true
  · rw [if_pos ht] at h
    by_cases hk : i.keyEnter = true ∨ i.keySpace = true
    · rw [if_pos hk] at h
      have := resetSimple_len _ _ _ h; omega
    · rw [if_neg hk] at h; cases h; exact hlen
  · rw [if_neg ht] at h
    have hms : (Simple.applyMetaKeys g i).snake = g.snake :=
      (applyMetaKeys_pres g i).1
    by_cases hgo : (Simple.applyMetaKeys g i).gameOver = true
    · rw [if_pos hgo] at h
      by_cases hk : i.keyEnter = true ∨ i.keyR = true
      · rw [if_pos hk] at h
        have := resetSimple_len _ _ _ h; omega
      · rw [if_neg hk] at h; cases h
        show 3 ≤ (Simple.applyMetaKeys g i).snake.length
        rw [hms]; exact hlen
    · rw [if_neg hgo] at h
      have hds :
          (Simple.applyDirInput (Simple.applyMetaKeys g i) i).snake = g.snake :=
        ((applyDirInputS_pres _ i).1).trans hms
      by_cases hp :
          (Simple.applyDirInput (Simple.applyMetaKeys g i) i).paused = true
      · rw [if_pos hp] at h; cases h
        show 3 ≤ (Simple.applyDirInput (Simple.applyMetaKeys g i) i).snake.length
        rw [hds]; exact hlen
      · rw [if_neg hp] at h
        exact moveSimple_len _ i g' (by rw [hds]; exact hlen) h

theorem run_lenS (is : List Simple.Input) :
    ∀ g g', 3 ≤ g.snake.length → runTicksS g is = some g' →
      3 ≤ g'.snake.length := by
  induction is with
  | nil => intro g g' hlen hrun; rw [runTicksS] at hrun; cases hrun; exact hlen
  | cons i is ih =>
    intro g g' hlen hrun
    rw [runTicksS] at hrun
    cases hstep : Simple.Update g i with
    | none => rw [hstep] at hrun; cases hrun
    | some g1 =>
      rw [hstep] at hrun
      dsimp only at hrun
      exact ih g1 g' (tickSimple_len g i g1 hlen hstep) hrun

/-- One enhanced-variant tick never shortens the snake below 3 cells:
a movement tick prepends one head cell then removes at most one tail
cell, and every other path leaves the body untouched. -/
theorem tick_len (g : Game) (i : Input) (g' : Game)
    (hlen : 3 ≤ g.snake.length) (h : updateGameplay g i = some g') :
    3 ≤ g'.snake.length := by
  unfold updateGameplay at h
  split_ifs at h with hp
  · cases h; exact hlen
  · revert h
    cases hpre : updatePre g i with
    | none => intro h; cases h
    | some p =>
      intro h
      have hpsnake : p.snake = g.snake := (updatePre_core g i p hpre).1.1
      simp only [movePhase] at h
      split_ifs at h with h1 h2
      · cases h; rw [hpsnake]; exact hlen
      · revert h
        split
        · intro h; cases h
        · rename_i head tail heq
          intro h
          have hlen2 : 3 ≤ (head :: tail).length := by
            rw [← heq, hpsnake]; exact hlen
          split_ifs at h with hcol
          · cases h
            show 3 ≤ p.snake.length
            rw [hpsnake]; exact hlen
          · revert h
            split
            · intro h; cases h
            · rename_i gmid heq2
              intro h
              cases h
              have hms := (foodPhase_pres _ _ _ _ heq2).1
              have hlen3 : 4 ≤ gmid.snake.length := by
                rw [hms]
                have := hlen2
                simp only [List.length_cons] at this ⊢
                omega
              have hpus := (powerUpPickup_pres gmid
                (wrapHead head p.nextDir p.gridW p.gridH)).1
              rcases (growPhase_pres (powerUpPickup gmid
                (wrapHead head p.nextDir p.gridW p.gridH))).1 with hgs | hgs
              · rw [hgs, hpus]; omega
              · rw [hgs, hpus, List.length_dropLast]; omega

theorem run_len (is : List Input) :
    ∀ g g', 3 ≤ g.snake.length → runTicks g is = some g' →
      3 ≤ g'.snake.length := by
  induction is with
  | nil => intro g g' hlen hrun; rw [runTicks] at hrun; cases hrun; exact hlen
  | cons i is ih =>
    intro g g' hlen hrun
    rw [runTicks] at hrun
    cases hstep : updateGameplay g i with
    | none => rw [hstep] at hrun; cases hrun
    | some g1 =>
      rw [hstep] at hrun
      dsimp only at hrun
      exact ih g1 g' (tick_len g i g1 hlen hstep) hrun

/-- **C10.** Both variants reset to a 3-segment snake, and every tick of
either variant keeps the body length at least 3 (movement prepends one
cell and removes at most one); hence along any run from a reset the
enhanced minimum-length guard `len > 1` is never binding and the simple
variant's unguarded tail removal never empties the snake. -/
theorem claim10_min_length :
    (∀ (g : Game) (i : Input) (gR : Game), resetGameplay g i = some gR →
      gR.snake.length = 3) ∧
    (∀ (g : Game) (i : Input) (g' : Game), 3 ≤ g.snake.length →
      updateGameplay g i = some g' → 3 ≤ g'.snake.length) ∧
    (∀ (is : List Input) (g g' : Game), 3 ≤ g.snake.length →
      runTicks g is = some g' → 3 ≤ g'.snake.length) ∧
    (∀ (g : Simple.Game) (i : Simple.Input) (gR : Simple.Game),
      Simple.reset g i = some gR → gR.snake.length = 3) ∧
    (∀ (g : Simple.Game) (i : Simple.Input) (g' : Simple.Game),
      3 ≤ g.snake.length → Simple.Update g i = some g' →
      3 ≤ g'.snake.length) ∧
    (∀ (is : List Simple.Input) (g g' : Simple.Game), 3 ≤ g.snake.length →
      runTicksS g is = some g' → 3 ≤ g'.snake.length) :=
  ⟨fun g i gR h => (reset_nodup g i gR h).2.2,
   fun g i g' hlen h => tick_len g i g' hlen h,
   fun is g g' hlen h => run_len is g g' hlen h,
   fun g i gR h => resetSimple_len g i gR h,
   fun g i g' hlen h => tickSimple_len g i g' hlen h,
   fun is g g' hlen h => run_lenS is g g' hlen h⟩

/-- The simple-variant reset state used in the C10 witness. -/
def gRS : Simple.Game :=
  { gExS with
    snake := [⟨16, 12⟩, ⟨15, 12⟩, ⟨14, 12⟩], dir := ⟨1, 0⟩,
    nextDir := ⟨1, 0⟩, grow := 0, frame := 0, score := 0, combo := 0,
    comboTimer := 0, gameOver := false, paused := false, inTitle := false,
    food := ⟨0, 0⟩ }

theorem claim10_witness :
    g9R.snake.length = 3 ∧ 3 ≤ g6final.snake.length ∧ gRS.snake.length = 3 ∧
    3 ≤ gW1.snake.length ∧
    3 ≤ ({ pW1 with dir := pW1.nextDir, state := GState.gameOver } : Game).snake.length :=
  ⟨claim10_min_length.1 g9pre i9reset g9R (by decide),
   claim10_min_length.2.2.1 tr6 gEx g6final (by decide) (by decide),
   claim10_min_length.2.2.2.1 gExS iExS gRS (by decide),
   by decide,
   claim10_min_length.2.1 gW1 inp0
     { pW1 with dir := pW1.nextDir, state := GState.gameOver } (by decide)
     (by decide)⟩

end SnakeGo
